import Mathlib

/-
Verification of the wallet-based challenge/response authentication subsystem
of the fst-Backend repository, as a shallow embedding in Lean 4.

The repository contains several overlapping implementations of the same
three operations (RequestChallenge, VerifyAndIssue, Introspect) plus
middleware.  Each embedded variant is kept in its own namespace and is
translated from the corresponding TypeScript source file:

  * `AuthTs`        — src/routes/auth.ts   (mongoose variant: /auth/nonce,
                      /auth/verify, /auth/introspect)
  * `AuthRoutesTs`  — src/routes/authRoutes.ts (/auth/challenge,
                      /auth/verify, /auth/introspect)
  * `ServerTs`      — src/server.ts (in-memory walletNonces Map variant)
  * `MwEnv`         — src/middleware/auth.ts (env-allow-list variant,
                      requireAuth)
  * `MwDev`         — src/middleware/auth.ts (first variant, secret
                      defaulting to "dev-secret")

External JavaScript/library machinery is modelled as follows: thrown
exceptions become `Option.none` at the call sites that can throw; the
Ed25519 core of tweetnacl is an oracle parameter (`SigVerifier`); the
jsonwebtoken HMAC is the standard symbolic unforgeable-signature model
(a token records the payload, the timestamps, and the secret it was
signed with, and verification succeeds exactly when the same secret is
presented and the token is unexpired).  Mongo collections keyed by a
unique wallet field are association lists.  Times are in milliseconds.
-/

namespace FstBackend

/-- JavaScript string truthiness fallback: models `a || b` for strings,
where the empty string is falsy. -/
def jsOr (a b : String) : String :=
  if a = "" then b else a

/-- Models `process.env.X || ""`: an absent variable reads as the empty
string. -/
def jsEnv (v : Option String) : String := v.getD ""

/-- Models `process.env.X || d` for a string default `d`: absent and empty
environment variables both fall back to the default. -/
def envOr (v : Option String) (d : String) : String :=
  jsOr (v.getD "") d

/-- ASCII whitespace recognised by the model of JavaScript `trim`. -/
def isJsSpace (c : Char) : Bool :=
  c = ' ' ∨ c = '\t' ∨ c = '\n' ∨ c = '\r'

/-- Models JavaScript `String.prototype.trim` (restricted to the ASCII
whitespace that can occur in the configuration strings involved). -/
def jsTrim (s : String) : String :=
  String.mk (((s.toList.dropWhile isJsSpace).reverse.dropWhile isJsSpace).reverse)

/-- ASCII lower-casing of one character, as done by
`String.prototype.toLowerCase` on the ASCII wallet strings involved. -/
def lowerChar (c : Char) : Char :=
  if 'A' ≤ c ∧ c ≤ 'Z' then Char.ofNat (c.toNat + 32) else c

/-- Models JavaScript `String.prototype.toLowerCase` on ASCII strings. -/
def jsToLower (s : String) : String :=
  String.mk (s.toList.map lowerChar)

/-- Helper for `splitOnComma`: accumulates the current piece in reverse. -/
def splitOnCommaAux : List Char → List Char → List String
  | [], cur => [String.mk cur.reverse]
  | c :: rest, cur =>
    if c = ',' then String.mk cur.reverse :: splitOnCommaAux rest []
    else splitOnCommaAux rest (c :: cur)

/-- Models JavaScript `s.split(",")`: splits at every comma, keeping empty
pieces. -/
def splitOnComma (s : String) : List String :=
  splitOnCommaAux s.toList []

/-- The base58 alphabet used by the `bs58` npm package (Bitcoin
alphabet). -/
def base58Chars : List Char :=
  "123456789ABCDEFGHJKLMNPQRSTUVWXYZabcdefghijkmnopqrstuvwxyz".toList

/-- The standard base64 alphabet. -/
def base64Chars : List Char :=
  "ABCDEFGHIJKLMNOPQRSTUVWXYZabcdefghijklmnopqrstuvwxyz0123456789+/".toList

/-- Position of a character in an alphabet, `none` if absent. -/
def indexIn (cs : List Char) (c : Char) : Option Nat :=
  cs.findIdx? (fun x => x == c)

/-- Value of a base58 digit, `none` for characters outside the alphabet. -/
def b58Index (c : Char) : Option Nat := indexIn base58Chars c

/-- Value of a base64 digit, `none` for characters outside the alphabet. -/
def b64Index (c : Char) : Option Nat := indexIn base64Chars c

/-- Big-endian byte expansion of a natural number, accumulator style.
The fuel argument bounds the number of produced bytes; every caller
passes a fuel that is at least the number of base-256 digits of `n`
(a base58 string of length `k` denotes a value below `58 ^ k ≤ 256 ^ k`),
so the bound is never hit and the function agrees with the untruncated
expansion. -/
def natToBytesAux : Nat → Nat → List Nat → List Nat
  | 0, _, acc => acc
  | fuel + 1, n, acc =>
    if n = 0 then acc else natToBytesAux fuel (n / 256) (n % 256 :: acc)

/-- Numeric value of a base58 digit string, `none` on the first invalid
character (the `bs58` package throws there). -/
def bs58DecodeCore : List Char → Nat → Option Nat
  | [], acc => some acc
  | c :: rest, acc =>
    match b58Index c with
    | none => none
    | some i => bs58DecodeCore rest (acc * 58 + i)

/-- Number of leading occurrences of a character. -/
def countLeading (c : Char) : List Char → Nat
  | [] => 0
  | x :: rest => if x = c then countLeading c rest + 1 else 0

/-- Models `bs58.decode`: `none` models the exception thrown on a
character outside the alphabet; otherwise the byte list, with one leading
zero byte per leading '1' digit. -/
def bs58Decode (s : String) : Option (List Nat) :=
  match bs58DecodeCore s.toList 0 with
  | none => none
  | some n =>
    some (List.replicate (countLeading '1' s.toList) 0 ++
          natToBytesAux s.toList.length n [])

/-- Decodes a list of base64 digit values (sextets) into bytes, the way
Node's forgiving decoder consumes them: full groups of four give three
bytes, a trailing group of three gives two, a trailing group of two gives
one, and a single trailing digit is dropped. -/
def b64GroupsToBytes : List Nat → List Nat
  | [] => []
  | [_] => []
  | [a, b] => [a * 4 + b / 16]
  | [a, b, c] => [a * 4 + b / 16, (b % 16) * 16 + c / 4]
  | a :: b :: c :: d :: rest =>
    (a * 4 + b / 16) :: ((b % 16) * 16 + c / 4) :: ((c % 4) * 64 + d) ::
      b64GroupsToBytes rest

/-- Models Node's `Buffer.from(s, "base64")` on padding-free inputs: the
decoder is forgiving — characters outside the base64 alphabet are simply
skipped and the function never throws, whatever the input string is. -/
def bufferFromBase64 (s : String) : List Nat :=
  b64GroupsToBytes (s.toList.filterMap b64Index)

/-- Strict base64 well-formedness for padding-free strings: every
character in the alphabet and a length divisible by four.  Node's
forgiving decoder accepts far more than this. -/
def isStrictBase64 (s : String) : Bool :=
  s.length % 4 == 0 && s.toList.all (fun c => (b64Index c).isSome)

/-- Oracle type abstracting the Ed25519 core of
`nacl.sign.detached.verify`: given the UTF-8 message (kept as a string,
since `TextEncoder().encode` is injective), the signature bytes and the
public-key bytes, decide validity. -/
def SigVerifier : Type := String → List Nat → List Nat → Bool

/-- Models `nacl.sign.detached.verify`: the library throws ("bad
signature size" / "bad public key size", modelled as `none`) unless the
signature is 64 bytes and the key 32 bytes, and otherwise returns the
verdict of the Ed25519 core. -/
def naclVerify (ver : SigVerifier) (message : String) (sig pk : List Nat) :
    Option Bool :=
  if sig.length = 64 ∧ pk.length = 32 then some (ver message sig pk) else none

/-- Oracle that accepts every signature (used to instantiate theorems at
concrete inputs on the accepting path). -/
def oracleTrue : SigVerifier := fun _ _ _ => true

/-- Oracle for which exactly one signature byte string is valid
(modelling a keypair whose correct detached signature is `good`). -/
def oracleExpect (good : List Nat) : SigVerifier :=
  fun _ sg _ => sg == good

/-- Claims carried by a JWT in this codebase.  Different variants sign
different subsets of fields; absent fields are `none` (JavaScript
`undefined`). -/
structure JwtPayload where
  wallet : Option String := none
  role : Option String := none
  userId : Option String := none
deriving DecidableEq

/-- Symbolic model of a signed JWT: the token records its payload, its
issue and expiry instants (milliseconds), and the secret it was signed
with.  Unforgeability of the HMAC is modelled by verification comparing
the recorded secret with the presented one. -/
structure Jwt where
  payload : JwtPayload
  iatMs : Nat
  expMs : Nat
  secret : String
deriving DecidableEq

/-- One day in milliseconds (jsonwebtoken's "7d" / "30d" lifetimes). -/
def dayMs : Nat := 86400000

/-- Models `jwt.sign(payload, secret, { expiresIn })`. -/
def jwtSign (p : JwtPayload) (secret : String) (nowMs lifeMs : Nat) : Jwt :=
  ⟨p, nowMs, nowMs + lifeMs, secret⟩

/-- Models `jwt.verify(token, secret)` at time `nowMs`: succeeds exactly
when the token was signed with the same secret and is unexpired, and
throws (here `none`) otherwise. -/
def jwtVerify (t : Jwt) (secret : String) (nowMs : Nat) : Option JwtPayload :=
  if t.secret = secret ∧ nowMs < t.expMs then some t.payload else none

/-- Association-list lookup by key, modelling `findOne`/`findUnique` on a
collection with a unique index on the key field. -/
def lookup {α : Type} (store : List (String × α)) (k : String) : Option α :=
  match store.find? (fun p => p.1 == k) with
  | none => none
  | some p => some p.2

/-- Association-list upsert, modelling `findOneAndUpdate(..., { upsert:
true })` / Prisma `upsert` on a unique key. -/
def upsert {α : Type} (store : List (String × α)) (k : String) (v : α) :
    List (String × α) :=
  if store.any (fun p => p.1 == k) then
    store.map (fun p => if p.1 == k then (k, v) else p)
  else store ++ [(k, v)]

/-- Association-list removal, modelling `deleteOne`/`deleteMany` keyed on
a unique field. -/
def remove {α : Type} (store : List (String × α)) (k : String) :
    List (String × α) :=
  store.filter (fun p => p.1 != k)

/-- Process environment consumed by the auth subsystem. -/
structure Env where
  jwtSecret : Option String := none
  adminWallets : Option String := none

/-- Abstract rendering of `Date.toISOString()` applied to a timestamp in
milliseconds.  Only injectivity of the rendering matters to the
properties proved here. -/
def isoString (ms : Nat) : String := toString ms

/-- The login-message template shared by src/routes/auth.ts (mongoose
variant) and src/routes/authRoutes.ts. -/
def fstLoginMessage (w nonce iso : String) : String :=
  "FST login\n\nWallet: " ++ w ++ "\nNonce: " ++ nonce ++
    "\nIssued At: " ++ iso ++
    "\n\nBy signing this message you prove ownership of the wallet."

/-- Models `isAdminWallet` of src/routes/auth.ts: trim the env string,
fail on empty, else split on commas, trim and lower-case each piece, and
test membership of the lower-cased address. -/
def isAdminWallet (envRaw address : String) : Bool :=
  let raw := jsTrim envRaw
  if raw = "" then false
  else ((splitOnComma raw).map (fun s => jsToLower (jsTrim s))).any
    (fun s => s == jsToLower address)

/-- Models `isAdminWallet` of src/routes/authRoutes.ts (same checks, but
the comma split is applied to the untrimmed env string). -/
def isAdminWalletR (envRaw address : String) : Bool :=
  if jsTrim envRaw = "" then false
  else ((splitOnComma envRaw).map (fun s => jsToLower (jsTrim s))).any
    (fun s => s == jsToLower address)

/-- Models `isSolanaAddress` of src/routes/authRoutes.ts: base58-decodes
and checks for exactly 32 bytes; a decode exception yields `false`. -/
def isSolanaAddress (addr : String) : Bool :=
  match bs58Decode addr with
  | none => false
  | some b => b.length == 32

/-- Models `verifySolanaSignature` of src/utils/solanaverify.ts: decode
the address and the signature as base58, encode the message, call nacl;
any exception in the `try` block (decode failure or a nacl size error)
is caught and yields `false`. -/
def verifySolanaSignature (ver : SigVerifier)
    (address message signature : String) : Bool :=
  match bs58Decode address with
  | none => false
  | some pubkey =>
    match bs58Decode signature with
    | none => false
    | some sig =>
      match naclVerify ver message sig pubkey with
      | none => false
      | some b => b

namespace AuthTs

/-- One stored row of the `Nonce` mongoose collection of
src/routes/auth.ts: `{ address (the key), nonce, createdAt }`. -/
structure NonceEntry where
  nonce : String
  createdAtMs : Nat
deriving DecidableEq

/-- The `Nonce` collection, keyed by wallet address (unique index). -/
abbrev NonceStore : Type := List (String × NonceEntry)

/-- One stored row of the `User` mongoose collection (the fields the auth
subsystem reads and writes). -/
structure UserRec where
  role : String
deriving DecidableEq

/-- The `User` collection, keyed by the unique `wallet` field. -/
abbrev UserStore : Type := List (String × UserRec)

/-- The JWT secret of src/routes/auth.ts:
`process.env.JWT_SECRET || "dev-secret-change-me"`. -/
def jwtSecretOf (env : Option String) : String :=
  envOr env "dev-secret-change-me"

/-- Outcomes of POST /auth/verify in src/routes/auth.ts (mongoose
variant), one constructor per distinct response. -/
inductive VerifyResult
  | missingParams
  | nonceMissing
  | invalidSignature
  | serverError
  | success (token : Jwt) (wallet : String) (role : String)
deriving DecidableEq

/-- HTTP status attached to each /auth/verify outcome by the source. -/
def VerifyResult.status : VerifyResult → Nat
  | .missingParams => 400
  | .nonceMissing => 400
  | .invalidSignature => 401
  | .serverError => 500
  | .success _ _ _ => 200

/-- Discriminator for the 200 response of /auth/verify. -/
def VerifyResult.isSuccess : VerifyResult → Bool
  | .success _ _ _ => true
  | _ => false

/-- The signature-decoding block of the /auth/verify handlers in
src/routes/auth.ts: try `Buffer.from(signature, "base64")`, falling back
to `bs58.decode` in the catch.  Node's forgiving base64 decoder never
throws, so the first attempt always produces bytes and the base58
fallback is unreachable. -/
def decodeSignature (s : String) : Option (List Nat) :=
  match some (bufferFromBase64 s) with
  | some b => some b
  | none => bs58Decode s

/-- Models POST /auth/verify of src/routes/auth.ts (mongoose variant).
Returns the response together with the resulting `Nonce` and `User`
collections.  Control flow follows the source line by line: missing
params, nonce lookup, message reconstruction from the stored nonce and
timestamp, signature decode (base64, dead base58 fallback), address
decode (uncaught, so a throw becomes the outer 500), nacl verification
(uncaught size errors become the outer 500), user find-or-create with
the allow-list consulted only at creation, token issuance with a 30-day
expiry, and nonce deletion on success only. -/
def verifyHandler (ver : SigVerifier) (env : Env) (nonces : NonceStore)
    (users : UserStore) (nowMs : Nat) (walletAddress signature : String) :
    VerifyResult × NonceStore × UserStore :=
  if walletAddress = "" ∨ signature = "" then (.missingParams, nonces, users)
  else
    match lookup nonces walletAddress with
    | none => (.nonceMissing, nonces, users)
    | some stored =>
      if stored.nonce = "" then (.nonceMissing, nonces, users)
      else
        match bs58Decode walletAddress with
        | none => (.serverError, nonces, users)
        | some pubkeyBytes =>
          match naclVerify ver
              (fstLoginMessage walletAddress stored.nonce
                (isoString stored.createdAtMs))
              ((decodeSignature signature).getD []) pubkeyBytes with
          | none => (.serverError, nonces, users)
          | some false => (.invalidSignature, nonces, users)
          | some true =>
            match lookup users walletAddress with
            | none =>
              (.success
                (jwtSign ⟨some walletAddress,
                    some (jsOr
                      (if isAdminWallet (jsEnv env.adminWallets) walletAddress
                        then "ADMIN" else "USER") "USER"), none⟩
                  (jwtSecretOf env.jwtSecret) nowMs (30 * dayMs))
                walletAddress
                (jsOr
                  (if isAdminWallet (jsEnv env.adminWallets) walletAddress
                    then "ADMIN" else "USER") "USER"),
               remove nonces walletAddress,
               users ++ [(walletAddress,
                 ⟨if isAdminWallet (jsEnv env.adminWallets) walletAddress
                   then "ADMIN" else "USER"⟩)])
            | some u =>
              (.success
                (jwtSign ⟨some walletAddress, some (jsOr u.role "USER"), none⟩
                  (jwtSecretOf env.jwtSecret) nowMs (30 * dayMs))
                walletAddress (jsOr u.role "USER"),
               remove nonces walletAddress, users)

/-- Outcomes of POST /auth/introspect in src/routes/auth.ts. -/
inductive IntrospectResult
  | missingHeader
  | invalidToken
  | invalidPayload
  | walletNotFound
  | ok (role : String) (wallet : String)
deriving DecidableEq

/-- Models POST /auth/introspect of src/routes/auth.ts (mongoose
variant).  A missing or non-Bearer Authorization header is modelled by
`hdr = none`.  The handler verifies the token, requires a wallet claim,
requires the wallet to exist in the `User` collection, and answers with
role `decoded.role || user.role || "USER"`; the admin allow-list is
never consulted. -/
def introspectHandler (env : Env) (users : UserStore) (nowMs : Nat)
    (hdr : Option Jwt) : IntrospectResult :=
  match hdr with
  | none => .missingHeader
  | some t =>
    match jwtVerify t (jwtSecretOf env.jwtSecret) nowMs with
    | none => .invalidToken
    | some decoded =>
      let w := decoded.wallet.getD ""
      if w = "" then .invalidPayload
      else
        match lookup users w with
        | none => .walletNotFound
        | some user => .ok (jsOr (decoded.role.getD "") (jsOr user.role "USER")) w

end AuthTs

namespace AuthRoutesTs

/-- One stored row of the `Challenge` mongoose collection of
src/routes/authRoutes.ts: the full challenge message text plus its
creation time, keyed by wallet. -/
structure ChallengeEntry where
  challenge : String
  createdAtMs : Nat
deriving DecidableEq

/-- The `Challenge` collection, keyed by the unique `wallet` field. -/
abbrev ChallengeStore : Type := List (String × ChallengeEntry)

/-- The JWT secret of src/routes/authRoutes.ts:
`process.env.JWT_SECRET || "dev-secret-change-me"`. -/
def jwtSecretOf (env : Option String) : String :=
  envOr env "dev-secret-change-me"

/-- The nonce TTL of src/routes/authRoutes.ts, in seconds. -/
def NONCE_TTL_SEC : Nat := 300

/-- Outcomes of POST /auth/challenge in src/routes/authRoutes.ts. -/
inductive ChallengeResult
  | walletRequired
  | invalidWalletAddress
  | ok (challenge : String)
deriving DecidableEq

/-- HTTP status of each /auth/challenge outcome. -/
def ChallengeResult.status : ChallengeResult → Nat
  | .walletRequired => 400
  | .invalidWalletAddress => 400
  | .ok _ => 200

/-- Models POST /auth/challenge of src/routes/authRoutes.ts: require a
present, well-formed (base58, 32-byte) address, build the challenge
message from a fresh random nonce (passed in as `nonceHex`, the hex of
16 random bytes) and the current time, upsert it, and return it. -/
def challengeHandler (store : ChallengeStore) (nowMs : Nat)
    (nonceHex walletAddress : String) : ChallengeResult × ChallengeStore :=
  if walletAddress = "" then (.walletRequired, store)
  else if ¬ isSolanaAddress walletAddress then (.invalidWalletAddress, store)
  else
    let challenge := fstLoginMessage walletAddress nonceHex (isoString nowMs)
    (.ok challenge, upsert store walletAddress ⟨challenge, nowMs⟩)

/-- Outcomes of POST /auth/verify in src/routes/authRoutes.ts. -/
inductive VResult
  | missingParams
  | invalidWalletAddress
  | noChallengeFound
  | challengeExpired
  | invalidSignature
  | serverError
  | success (token : Jwt) (wallet : String) (role : String)
deriving DecidableEq

/-- HTTP status of each /auth/verify outcome in authRoutes.ts. -/
def VResult.status : VResult → Nat
  | .missingParams => 400
  | .invalidWalletAddress => 400
  | .noChallengeFound => 400
  | .challengeExpired => 400
  | .invalidSignature => 401
  | .serverError => 500
  | .success _ _ _ => 200

/-- Discriminator for the 200 response of authRoutes.ts /auth/verify. -/
def VResult.isSuccess : VResult → Bool
  | .success _ _ _ => true
  | _ => false

/-- Models POST /auth/verify of src/routes/authRoutes.ts.  The TTL test
`(Date.now() - createdAt.getTime()) / 1000 > NONCE_TTL_SEC` is the exact
real-number comparison `nowMs - createdAtMs > 300000`.  An expired
challenge is deleted and rejected; the signature is decoded with Node's
never-throwing base64 decoder (the bs58 fallback in the catch is
unreachable); nacl size errors propagate to the outer catch as a 500;
on success the challenge is deleted and a 30-day token is signed with
the allow-list-derived role.  No user record is touched. -/
def verifyHandler (ver : SigVerifier) (env : Env) (store : ChallengeStore)
    (nowMs : Nat) (walletAddress signature : String) :
    VResult × ChallengeStore :=
  if walletAddress = "" ∨ signature = "" then (.missingParams, store)
  else if ¬ isSolanaAddress walletAddress then (.invalidWalletAddress, store)
  else
    match lookup store walletAddress with
    | none => (.noChallengeFound, store)
    | some entry =>
      if nowMs - entry.createdAtMs > NONCE_TTL_SEC * 1000 then
        (.challengeExpired, remove store walletAddress)
      else
        match bs58Decode walletAddress with
        | none => (.serverError, store)
        | some pk =>
          match naclVerify ver entry.challenge (bufferFromBase64 signature) pk with
          | none => (.serverError, store)
          | some false => (.invalidSignature, store)
          | some true =>
            (.success
              (jwtSign ⟨some walletAddress,
                  some (if isAdminWalletR (jsEnv env.adminWallets) walletAddress
                    then "ADMIN" else "USER"), none⟩
                (jwtSecretOf env.jwtSecret) nowMs (30 * dayMs))
              walletAddress
              (if isAdminWalletR (jsEnv env.adminWallets) walletAddress
                then "ADMIN" else "USER"),
             remove store walletAddress)

/-- Outcomes of POST /auth/introspect in src/routes/authRoutes.ts. -/
inductive IntroRes
  | missingHeader
  | invalidToken
  | ok (wallet : String) (role : String)
deriving DecidableEq

/-- Models POST /auth/introspect of src/routes/authRoutes.ts: a pure
token check — verify the bearer token against the module secret and
answer with the embedded claims; no store of any kind is read. -/
def introspectHandler (env : Env) (nowMs : Nat) (hdr : Option Jwt) :
    IntroRes :=
  match hdr with
  | none => .missingHeader
  | some t =>
    match jwtVerify t (jwtSecretOf env.jwtSecret) nowMs with
    | none => .invalidToken
    | some decoded =>
      .ok (decoded.wallet.getD "") (jsOr (decoded.role.getD "") "USER")

end AuthRoutesTs

namespace ServerTs

/-- One stored row of the `User` mongoose collection of src/server.ts:
the auth-relevant fields `role` and the persisted session `token`. -/
structure SUser where
  role : String
  token : Option Jwt := none
deriving DecidableEq

/-- The `User` collection of src/server.ts, keyed by `wallet`. -/
abbrev SUserStore : Type := List (String × SUser)

/-- The in-memory `walletNonces : Map<string, string>` of src/server.ts. -/
abbrev NonceMap : Type := List (String × String)

/-- Outcomes of POST /auth/verify in src/server.ts. -/
inductive SVerifyResult
  | missingFields
  | noChallengeFound
  | invalidSignature
  | serverError
  | ok (token : Jwt) (role : String)
deriving DecidableEq

/-- Models POST /auth/verify of src/server.ts: look up the in-memory
challenge, require the client-provided message to equal it, decode the
address with bs58 (uncaught: a throw is the outer 500) and the signature
with Node base64, verify, and on success delete the nonce, derive the
role from the single `ADMIN_WALLET_ADDRESS` env variable (case-sensitive
strict equality), issue a token via the middleware `issueJwt` (secret
`JWT_SECRET || "dev-secret"`, 7 days), and persist `{ token, role }` on
the `User` record by upsert. -/
def verifyHandler (ver : SigVerifier) (adminWalletAddress : Option String)
    (envSecret : Option String) (nonces : NonceMap) (users : SUserStore)
    (nowMs : Nat) (address signature message : String) :
    SVerifyResult × NonceMap × SUserStore :=
  if address = "" ∨ signature = "" ∨ message = "" then
    (.missingFields, nonces, users)
  else
    match lookup nonces address with
    | none => (.noChallengeFound, nonces, users)
    | some expected =>
      if expected = "" ∨ expected ≠ message then (.noChallengeFound, nonces, users)
      else
        match bs58Decode address with
        | none => (.serverError, nonces, users)
        | some pk =>
          match naclVerify ver message (bufferFromBase64 signature) pk with
          | none => (.serverError, nonces, users)
          | some false => (.invalidSignature, nonces, users)
          | some true =>
            let role :=
              if adminWalletAddress = some address then "ADMIN" else "USER"
            let token :=
              jwtSign ⟨none, some role, some address⟩
                (envOr envSecret "dev-secret") nowMs (7 * dayMs)
            (.ok token role,
             remove nonces address,
             upsert users address ⟨role, some token⟩)

/-- Outcomes of POST /auth/introspect in src/server.ts. -/
inductive IntroResult
  | inactive (role : String)
  | active (role : String)
deriving DecidableEq

/-- Models POST /auth/introspect of src/server.ts: the token string from
the body is looked up in the persisted `User` collection
(`User.findOne({ token })`); a hit answers `{active:true}` with the
stored role and a miss (or missing token) answers `{active:false}`.
No signature or expiry check is performed — validity is decided by the
server-side record alone. -/
def introspectHandler (users : SUserStore) (body : Option Jwt) : IntroResult :=
  match body with
  | none => .inactive "USER"
  | some t =>
    match users.find? (fun p => p.2.token == some t) with
    | none => .inactive "USER"
    | some p => .active p.2.role

end ServerTs

namespace MwEnv

/-- The JWT secret of src/middleware/auth.ts (env-allow-list variant):
`process.env.JWT_SECRET || "dev-secret-change-me"`. -/
def jwtSecretOf (env : Option String) : String :=
  envOr env "dev-secret-change-me"

/-- The parsed `ADMIN_WALLETS` list of src/middleware/auth.ts
(env-allow-list variant): split on commas, trim and lower-case each
piece, drop empties. -/
def adminList (envRaw : String) : List String :=
  (((splitOnComma envRaw).map (fun s => jsToLower (jsTrim s))).filter
    (fun s => s != ""))

/-- Outcomes of the `requireAuth` middleware of src/middleware/auth.ts
(env-allow-list variant). -/
inductive AuthResult
  | missingHeader
  | invalidToken
  | invalidPayload
  | userNotFound
  | ok (wallet : String) (role : String)
deriving DecidableEq

/-- Models `requireAuth` of src/middleware/auth.ts (env-allow-list
variant): verify the bearer token, require a wallet claim, require a
matching `User` document, and resolve the effective role as ADMIN iff
the stored role is ADMIN, or the token role is ADMIN, or the
lower-cased wallet is on the `ADMIN_WALLETS` allow-list. -/
def requireAuth (env : Env) (users : AuthTs.UserStore) (nowMs : Nat)
    (hdr : Option Jwt) : AuthResult :=
  match hdr with
  | none => .missingHeader
  | some t =>
    match jwtVerify t (jwtSecretOf env.jwtSecret) nowMs with
    | none => .invalidToken
    | some decoded =>
      let w := decoded.wallet.getD ""
      if w = "" then .invalidPayload
      else
        match lookup users w with
        | none => .userNotFound
        | some user =>
          let dbRole := jsOr user.role "USER"
          let tokenRole := jsOr (decoded.role.getD "") "USER"
          if dbRole = "ADMIN" ∨ tokenRole = "ADMIN" ∨
              (adminList (jsEnv env.adminWallets)).contains (jsToLower w) then
            .ok w "ADMIN"
          else .ok w "USER"

end MwEnv

namespace MwDev

/-- The JWT secret of src/middleware/auth.ts (first variant):
`process.env.JWT_SECRET || "dev-secret"`. -/
def jwtSecretOf (env : Option String) : String := envOr env "dev-secret"

/-- Models `issueJwt` of src/middleware/auth.ts (first variant): sign the
payload with the module secret and a 7-day expiry. -/
def issueJwt (p : JwtPayload) (env : Option String) (nowMs : Nat) : Jwt :=
  jwtSign p (jwtSecretOf env) nowMs (7 * dayMs)

end MwDev

/-- A well-formed wallet address: 32 '1' digits, the base58 encoding of
the 32-byte zero key. -/
def addr32 : String := String.mk (List.replicate 32 '1')

/-- A signature string of 86 base64 characters, decoding to 64 bytes. -/
def sig86A : String := String.mk (List.replicate 86 'A')

/-- A second signature string of 86 base64 characters, with different
bytes than `sig86A`. -/
def sig86B : String := String.mk (List.replicate 86 'B')

/-- A signature string of 87 base58 characters: valid base58 (decoding
to 64 bytes) but not strict base64 (length not divisible by four). -/
def sigB58 : String := String.mk (List.replicate 87 '2')

/-- A 32-character hex-shaped nonce. -/
def nonceA : String := String.mk (List.replicate 32 'a')

/-- A second, different 32-character nonce. -/
def nonceB : String := String.mk (List.replicate 32 'b')

/-- The token issued by the src/server.ts verify handler under default
configuration for the zero-key wallet at time 0. -/
def devToken : Jwt :=
  jwtSign ⟨none, some "USER", some addr32⟩ "dev-secret" 0 (7 * dayMs)

/-- Looking a key up after removing it finds nothing. -/
theorem lookup_remove_self {α : Type} (store : List (String × α)) (k : String) :
    lookup (remove store k) k = none := by
  have hnone : (List.filter (fun p => p.1 != k) store).find?
      (fun p => p.1 == k) = none := by
    rw [List.find?_eq_none]
    intro x hx
    have hxk := List.of_mem_filter hx
    simp only [bne_iff_ne, ne_eq] at hxk
    simp [hxk]
  unfold lookup remove
  rw [hnone]

/-- String concatenation concatenates the underlying character lists. -/
theorem strData_append (a b : String) : (a ++ b).data = a.data ++ b.data := rfl

/-- The login-message template determines the nonce, for nonces of equal
length and a fixed wallet: distinct equal-length nonces give distinct
messages. -/
theorem fstLoginMessage_nonce_inj (w n1 n2 a1 a2 : String)
    (hlen : n1.length = n2.length)
    (h : fstLoginMessage w n1 a1 = fstLoginMessage w n2 a2) : n1 = n2 := by
  unfold fstLoginMessage at h
  have hd := congrArg String.data h
  simp only [strData_append, List.append_assoc] at hd
  have hd2 := List.append_cancel_left hd
  have hd3 := List.append_cancel_left hd2
  have hd4 := List.append_cancel_left hd3
  have hdl : n1.data.length = n2.data.length := hlen
  have hinj := (List.append_inj hd4 hdl).1
  cases n1
  cases n2
  exact congrArg String.mk hinj

/-- Inversion of the mongoose /auth/verify handler on the success path:
a 200 response implies the wallet parameter was nonempty, the nonce row
for the wallet was deleted, and the user store either gained a freshly
created record (role from the allow-list) or was left untouched. -/
theorem AuthTs.verify_success_inv (ver : SigVerifier) (env : Env)
    (nonces : AuthTs.NonceStore) (users : AuthTs.UserStore) (nowMs : Nat)
    (w s : String)
    (h : (AuthTs.verifyHandler ver env nonces users nowMs w s).1.isSuccess = true) :
    w ≠ "" ∧
    (AuthTs.verifyHandler ver env nonces users nowMs w s).2.1 = remove nonces w ∧
    (AuthTs.verifyHandler ver env nonces users nowMs w s).2.2 =
      (match lookup users w with
       | none => users ++
           [(w, ⟨if isAdminWallet (jsEnv env.adminWallets) w
                 then "ADMIN" else "USER"⟩)]
       | some _ => users) := by
  unfold AuthTs.verifyHandler at h ⊢
  by_cases h0 : w = "" ∨ s = ""
  · rw [if_pos h0] at h
    simp [AuthTs.VerifyResult.isSuccess] at h
  · rw [if_neg h0] at h ⊢
    have hw : w ≠ "" := fun he => h0 (Or.inl he)
    cases hlk : lookup nonces w with
    | none =>
      simp only [hlk] at h
      simp [AuthTs.VerifyResult.isSuccess] at h
    | some stored =>
      simp only [hlk] at h ⊢
      by_cases hn : stored.nonce = ""
      · rw [if_pos hn] at h
        simp [AuthTs.VerifyResult.isSuccess] at h
      · rw [if_neg hn] at h ⊢
        cases hpk : bs58Decode w with
        | none =>
          simp only [hpk] at h
          simp [AuthTs.VerifyResult.isSuccess] at h
        | some pk =>
          simp only [hpk] at h ⊢
          cases hnv : naclVerify ver
              (fstLoginMessage w stored.nonce (isoString stored.createdAtMs))
              ((AuthTs.decodeSignature s).getD []) pk with
          | none =>
            simp only [hnv] at h
            simp [AuthTs.VerifyResult.isSuccess] at h
          | some b =>
            cases b with
            | false =>
              simp only [hnv] at h
              simp [AuthTs.VerifyResult.isSuccess] at h
            | true =>
              simp only [hnv] at h ⊢
              cases hlu : lookup users w with
              | none =>
                simp only [hlu]
                exact ⟨hw, trivial, trivial⟩
              | some u =>
                simp only [hlu]
                exact ⟨hw, trivial, trivial⟩

/-- C1 (counterexample): the /auth/introspect handler of
src/routes/auth.ts resolves the effective role of an allow-listed
address to USER when both the token claim and the stored Account role
are USER — the admin allow-list is not consulted, contradicting the
claimed allow-list-first precedence for every authenticated request. -/
theorem C1_counterexample :
    isAdminWallet (jsEnv (some "w1")) "w1" = true ∧
    AuthTs.introspectHandler ⟨none, some "w1"⟩ [("w1", ⟨"USER"⟩)] 5
      (some (jwtSign ⟨some "w1", some "USER", none⟩ "dev-secret-change-me" 0
        (30 * dayMs)))
      = .ok "USER" "w1" := by
  constructor
  · decide
  · decide

/-- C1 (amended): in the `requireAuth` middleware of
src/middleware/auth.ts (env-allow-list variant), an address on the
`ADMIN_WALLETS` allow-list resolves to ADMIN regardless of the stored
Account role and of the token's role claim. -/
theorem C1_theorem (env : Env) (users : AuthTs.UserStore) (nowMs : Nat)
    (t : Jwt) (p : JwtPayload) (w : String) (u : AuthTs.UserRec)
    (hver : jwtVerify t (MwEnv.jwtSecretOf env.jwtSecret) nowMs = some p)
    (hw : p.wallet = some w) (hne : w ≠ "")
    (hu : lookup users w = some u)
    (hadmin : (MwEnv.adminList (jsEnv env.adminWallets)).contains
      (jsToLower w) = true) :
    MwEnv.requireAuth env users nowMs (some t) = .ok w "ADMIN" := by
  unfold MwEnv.requireAuth
  simp only [hver, hw, Option.getD_some]
  rw [if_neg hne]
  simp only [hu]
  rw [if_pos (Or.inr (Or.inr hadmin))]

/-- C1 (witness): a concrete allow-listed wallet with stored role USER
and token role USER still resolves to ADMIN through `requireAuth`. -/
theorem C1_witness :
    (MwEnv.adminList (jsEnv (some "WalletX"))).contains
      (jsToLower "WalletX") = true ∧
    MwEnv.requireAuth ⟨none, some "WalletX"⟩ [("WalletX", ⟨"USER"⟩)] 5
      (some (jwtSign ⟨some "WalletX", some "USER", none⟩ "dev-secret-change-me"
        0 (30 * dayMs)))
      = .ok "WalletX" "ADMIN" :=
  ⟨by decide,
   C1_theorem ⟨none, some "WalletX"⟩ [("WalletX", ⟨"USER"⟩)] 5
     (jwtSign ⟨some "WalletX", some "USER", none⟩ "dev-secret-change-me" 0
       (30 * dayMs))
     ⟨some "WalletX", some "USER", none⟩ "WalletX" ⟨"USER"⟩
     (by decide) (by decide) (by decide) (by decide) (by decide)⟩

/-- C5 (counterexample): in src/server.ts the session token is not a
stateless credential: a successful verify persists the issued token on
the User record, and /auth/introspect decides validity by looking the
presented token up in the User collection — the same well-signed,
unexpired token is reported active against one server state and
inactive against another, so validity is not a function of signature
and expiry alone. -/
theorem C5_counterexample :
    (ServerTs.verifyHandler oracleTrue none none [(addr32, "m")] [] 0
       addr32 sig86A "m").2.2 = [(addr32, ⟨"USER", some devToken⟩)] ∧
    ServerTs.introspectHandler [(addr32, ⟨"USER", some devToken⟩)]
      (some devToken) = .active "USER" ∧
    ServerTs.introspectHandler [] (some devToken) = .inactive "USER" ∧
    1 < devToken.expMs ∧ devToken.secret = "dev-secret" := by
  refine ⟨by decide, by decide, by decide, by decide, by decide⟩

/-- C5 (amended): the /auth/introspect handler of
src/routes/authRoutes.ts is genuinely stateless: it answers `ok` for a
presented bearer token exactly when the token's signature matches the
module's server-held secret and the current time is before its expiry;
no store appears in its signature at all. -/
theorem C5_theorem (env : Env) (nowMs : Nat) (t : Jwt) :
    (∃ w r, AuthRoutesTs.introspectHandler env nowMs (some t) = .ok w r) ↔
      (t.secret = AuthRoutesTs.jwtSecretOf env.jwtSecret ∧ nowMs < t.expMs) := by
  simp only [AuthRoutesTs.introspectHandler, jwtVerify]
  by_cases h : t.secret = AuthRoutesTs.jwtSecretOf env.jwtSecret ∧ nowMs < t.expMs
  · rw [if_pos h]
    simp only [h, and_self, iff_true]
    exact ⟨_, _, rfl⟩
  · rw [if_neg h]
    simp only [h, iff_false]
    intro ⟨w, r, hc⟩
    cases hc

/-- C6: the Signature Verifier `verifySolanaSignature` is total — it
yields `false` (rather than an escaping exception) whenever the address
or the signature fails base58 decoding, and likewise when the decoded
key is not 32 bytes or the decoded signature is not 64 bytes (the cases
in which nacl itself throws inside the `try`). -/
theorem C6_theorem (ver : SigVerifier) (address message signature : String)
    (h : bs58Decode address = none ∨ bs58Decode signature = none ∨
      ∀ pk sg, bs58Decode address = some pk → bs58Decode signature = some sg →
        pk.length ≠ 32 ∨ sg.length ≠ 64) :
    verifySolanaSignature ver address message signature = false := by
  unfold verifySolanaSignature
  cases hpk : bs58Decode address with
  | none => rfl
  | some pk =>
    cases hsg : bs58Decode signature with
    | none => rfl
    | some sg =>
      rcases h with h | h | h
      · rw [hpk] at h; cases h
      · rw [hsg] at h; cases h
      · have hlen := h pk sg hpk hsg
        have hcond : ¬ (sg.length = 64 ∧ pk.length = 32) := by
          rcases hlen with hl | hl
          · exact fun hc => hl hc.2
          · exact fun hc => hl hc.1
        simp [naclVerify, hcond]

/-- C6 (witness): the character '0' is outside the base58 alphabet, so
a malformed address yields `false` from the verifier. -/
theorem C6_witness :
    bs58Decode "0" = none ∧
    verifySolanaSignature oracleTrue "0" "msg" "sig" = false :=
  ⟨by decide, C6_theorem oracleTrue "0" "msg" "sig" (Or.inl (by decide))⟩

/-- C10: with `JWT_SECRET` unset, the middleware of
src/middleware/auth.ts signs with the hard-coded "dev-secret" while the
route modules verify against "dev-secret-change-me"; a valid, unexpired
token issued by the middleware is therefore rejected (401) by the
/auth/introspect handler of src/routes/auth.ts in the same process. -/
theorem C10_theorem :
    MwDev.jwtSecretOf none ≠ AuthTs.jwtSecretOf none ∧
    1 < (MwDev.issueJwt ⟨none, some "USER", some "w"⟩ none 0).expMs ∧
    jwtVerify (MwDev.issueJwt ⟨none, some "USER", some "w"⟩ none 0)
      (AuthTs.jwtSecretOf none) 1 = none ∧
    AuthTs.introspectHandler ⟨none, none⟩ [] 1
      (some (MwDev.issueJwt ⟨none, some "USER", some "w"⟩ none 0))
      = .invalidToken := by
  refine ⟨by decide, by decide, by decide, by decide⟩

/-- C2 (counterexample): the /auth/verify handler of src/routes/auth.ts
performs no TTL check at all: a stored challenge whose age (301.001
seconds) exceeds the default 300-second TTL is still accepted — the
call succeeds instead of being rejected with an expired-challenge
error. -/
theorem C2_counterexample :
    (301001 : Nat) - 0 > AuthRoutesTs.NONCE_TTL_SEC * 1000 ∧
    (AuthTs.verifyHandler oracleTrue ⟨none, none⟩ [(addr32, ⟨nonceA, 0⟩)] []
      301001 addr32 sig86A).1.isSuccess = true := by
  refine ⟨by decide, by decide⟩

/-- C2 (amended): in the /auth/verify handler of
src/routes/authRoutes.ts a stored challenge older than the TTL is
rejected with the expired-challenge error and purged, and a subsequent
/auth/challenge for the same address succeeds, storing a challenge
built from the fresh nonce that differs from the old challenge whenever
the fresh equal-length nonce differs from the old one. -/
theorem C2_theorem (ver : SigVerifier) (env : Env)
    (store : AuthRoutesTs.ChallengeStore) (now1 now2 : Nat)
    (w s nonce1 iso1 nonce2 : String) (e : AuthRoutesTs.ChallengeEntry)
    (hw : w ≠ "") (hs : s ≠ "")
    (haddr : isSolanaAddress w = true)
    (he : lookup store w = some e)
    (hold : e.challenge = fstLoginMessage w nonce1 iso1)
    (hexp : now1 - e.createdAtMs > AuthRoutesTs.NONCE_TTL_SEC * 1000)
    (hlen : nonce1.length = nonce2.length) (hne : nonce2 ≠ nonce1) :
    AuthRoutesTs.verifyHandler ver env store now1 w s
      = (.challengeExpired, remove store w) ∧
    AuthRoutesTs.challengeHandler (remove store w) now2 nonce2 w
      = (.ok (fstLoginMessage w nonce2 (isoString now2)),
         upsert (remove store w) w ⟨fstLoginMessage w nonce2 (isoString now2), now2⟩) ∧
    fstLoginMessage w nonce2 (isoString now2) ≠ e.challenge := by
  refine ⟨?_, ?_, ?_⟩
  · unfold AuthRoutesTs.verifyHandler
    rw [if_neg (by simp [hw, hs])]
    rw [if_neg (by simp [haddr])]
    simp only [he]
    rw [if_pos hexp]
  · unfold AuthRoutesTs.challengeHandler
    rw [if_neg hw]
    rw [if_neg (by simp [haddr])]
  · intro heq
    rw [hold] at heq
    exact hne (fstLoginMessage_nonce_inj w nonce2 nonce1 (isoString now2) iso1
      hlen.symm heq)

set_option maxRecDepth 8192 in
/-- C2 (witness): a concrete expired challenge for the zero-key wallet
is rejected and purged, and re-challenging with a fresh 32-character
nonce stores a different challenge. -/
theorem C2_witness :
    (301001 : Nat) - 0 > AuthRoutesTs.NONCE_TTL_SEC * 1000 ∧
    (AuthRoutesTs.verifyHandler oracleTrue ⟨none, none⟩
        [(addr32, ⟨fstLoginMessage addr32 nonceA (isoString 0), 0⟩)] 301001
        addr32 sig86A
      = (.challengeExpired,
         remove [(addr32, ⟨fstLoginMessage addr32 nonceA (isoString 0), 0⟩)] addr32) ∧
     AuthRoutesTs.challengeHandler
        (remove [(addr32, ⟨fstLoginMessage addr32 nonceA (isoString 0), 0⟩)] addr32)
        7 nonceB addr32
      = (.ok (fstLoginMessage addr32 nonceB (isoString 7)),
         upsert
           (remove [(addr32, ⟨fstLoginMessage addr32 nonceA (isoString 0), 0⟩)] addr32)
           addr32 ⟨fstLoginMessage addr32 nonceB (isoString 7), 7⟩) ∧
     fstLoginMessage addr32 nonceB (isoString 7)
       ≠ (⟨fstLoginMessage addr32 nonceA (isoString 0), 0⟩ :
           AuthRoutesTs.ChallengeEntry).challenge) :=
  ⟨by decide,
   C2_theorem oracleTrue ⟨none, none⟩
     [(addr32, ⟨fstLoginMessage addr32 nonceA (isoString 0), 0⟩)] 301001 7
     addr32 sig86A nonceA (isoString 0) nonceB
     ⟨fstLoginMessage addr32 nonceA (isoString 0), 0⟩
     (by decide) (by decide) (by decide) (by decide) (by decide) (by decide)
     (by decide) (by decide)⟩

/-- C3: the challenge is single-use — after a successful /auth/verify in
src/routes/auth.ts the nonce row is deleted, so a second verification
attempt for the same address answers the missing-challenge error
(nonce_missing) whatever signature it presents and whatever the
signature oracle says, leaving all stores unchanged. -/
theorem C3_theorem (ver ver2 : SigVerifier) (env : Env)
    (nonces : AuthTs.NonceStore) (users users2 : AuthTs.UserStore)
    (now now2 : Nat) (w s s2 : String) (hs2 : s2 ≠ "")
    (h : (AuthTs.verifyHandler ver env nonces users now w s).1.isSuccess = true) :
    AuthTs.verifyHandler ver2 env
      (AuthTs.verifyHandler ver env nonces users now w s).2.1 users2 now2 w s2
      = (.nonceMissing,
         (AuthTs.verifyHandler ver env nonces users now w s).2.1, users2) := by
  obtain ⟨hw, hst, -⟩ := AuthTs.verify_success_inv ver env nonces users now w s h
  rw [hst]
  unfold AuthTs.verifyHandler
  rw [if_neg (by simp [hw, hs2])]
  simp only [lookup_remove_self]

/-- C3 (witness): a concrete successful verification for the zero-key
wallet followed by a replay of the same consumed challenge. -/
theorem C3_witness :
    (AuthTs.verifyHandler oracleTrue ⟨none, none⟩ [(addr32, ⟨nonceA, 0⟩)] []
      0 addr32 sig86A).1.isSuccess = true ∧
    AuthTs.verifyHandler oracleTrue ⟨none, none⟩
      (AuthTs.verifyHandler oracleTrue ⟨none, none⟩ [(addr32, ⟨nonceA, 0⟩)] []
        0 addr32 sig86A).2.1 [] 1 addr32 sig86A
      = (.nonceMissing,
         (AuthTs.verifyHandler oracleTrue ⟨none, none⟩ [(addr32, ⟨nonceA, 0⟩)]
           [] 0 addr32 sig86A).2.1, []) :=
  ⟨by decide,
   C3_theorem oracleTrue oracleTrue ⟨none, none⟩ [(addr32, ⟨nonceA, 0⟩)] [] []
     0 1 addr32 sig86A sig86A (by decide) (by decide)⟩

/-- C4: the /auth/verify handler of src/routes/authRoutes.ts consumes
the challenge only on success — a verification attempt whose signature
the Ed25519 core rejects answers 401 invalid-signature leaving the
challenge store untouched, and a retry with the correct signature
before the TTL elapses succeeds. -/
theorem C4_theorem (ver : SigVerifier) (env : Env)
    (store : AuthRoutesTs.ChallengeStore) (now1 now2 : Nat)
    (w s1 s2 : String) (e : AuthRoutesTs.ChallengeEntry) (pk : List Nat)
    (hw : w ≠ "") (hs1 : s1 ≠ "") (hs2 : s2 ≠ "")
    (haddr : isSolanaAddress w = true)
    (he : lookup store w = some e)
    (hfresh1 : ¬ (now1 - e.createdAtMs > AuthRoutesTs.NONCE_TTL_SEC * 1000))
    (hfresh2 : ¬ (now2 - e.createdAtMs > AuthRoutesTs.NONCE_TTL_SEC * 1000))
    (hpk : bs58Decode w = some pk)
    (hl1 : (bufferFromBase64 s1).length = 64)
    (hl2 : (bufferFromBase64 s2).length = 64)
    (hbad : ver e.challenge (bufferFromBase64 s1) pk = false)
    (hgood : ver e.challenge (bufferFromBase64 s2) pk = true) :
    AuthRoutesTs.verifyHandler ver env store now1 w s1
      = (.invalidSignature, store) ∧
    (AuthRoutesTs.verifyHandler ver env store now2 w s2).1.isSuccess = true := by
  have hpk32 : pk.length = 32 := by
    unfold isSolanaAddress at haddr
    rw [hpk] at haddr
    simpa using haddr
  constructor
  · unfold AuthRoutesTs.verifyHandler
    rw [if_neg (by simp [hw, hs1])]
    rw [if_neg (by simp [haddr])]
    simp only [he]
    rw [if_neg hfresh1]
    simp only [hpk, naclVerify]
    rw [if_pos ⟨hl1, hpk32⟩]
    simp only [hbad]
  · unfold AuthRoutesTs.verifyHandler
    rw [if_neg (by simp [hw, hs2])]
    rw [if_neg (by simp [haddr])]
    simp only [he]
    rw [if_neg hfresh2]
    simp only [hpk, naclVerify]
    rw [if_pos ⟨hl2, hpk32⟩]
    simp only [hgood]
    rfl

/-- C4 (witness): under an oracle for which only the second signature
string's bytes are valid, the first attempt answers invalid-signature
with the store unchanged and the retry succeeds. -/
theorem C4_witness :
    (oracleExpect (bufferFromBase64 sig86B) "m" (bufferFromBase64 sig86A)
      (List.replicate 32 0) = false) ∧
    AuthRoutesTs.verifyHandler (oracleExpect (bufferFromBase64 sig86B))
      ⟨none, none⟩ [(addr32, ⟨"m", 0⟩)] 5 addr32 sig86A
      = (.invalidSignature, [(addr32, ⟨"m", 0⟩)]) ∧
    (AuthRoutesTs.verifyHandler (oracleExpect (bufferFromBase64 sig86B))
      ⟨none, none⟩ [(addr32, ⟨"m", 0⟩)] 6 addr32 sig86B).1.isSuccess = true :=
  ⟨by decide,
   (C4_theorem (oracleExpect (bufferFromBase64 sig86B)) ⟨none, none⟩
     [(addr32, ⟨"m", 0⟩)] 5 6 addr32 sig86A sig86B ⟨"m", 0⟩
     (List.replicate 32 0)
     (by decide) (by decide) (by decide) (by decide) (by decide) (by decide)
     (by decide) (by decide) (by decide) (by decide) (by decide) (by decide)).1,
   (C4_theorem (oracleExpect (bufferFromBase64 sig86B)) ⟨none, none⟩
     [(addr32, ⟨"m", 0⟩)] 5 6 addr32 sig86A sig86B ⟨"m", 0⟩
     (List.replicate 32 0)
     (by decide) (by decide) (by decide) (by decide) (by decide) (by decide)
     (by decide) (by decide) (by decide) (by decide) (by decide) (by decide)).2⟩

/-- C7: in the signature decoding of the /auth/verify handlers of
src/routes/auth.ts, the base58 fallback is dead code.  The 87-character
base58 string `sigB58` is not valid base64 (length 87 is not a multiple
of four) yet base58-decodes to 64 bytes; Node's forgiving base64
decoder nevertheless accepts it, producing 65 garbage bytes, so the
decoder never falls back to base58, and under an oracle for which the
base58 bytes are the correct signature the handler answers 500 (nacl
throws on the 65-byte signature) instead of succeeding. -/
theorem C7_theorem :
    isStrictBase64 sigB58 = false ∧
    (bs58Decode sigB58).isSome = true ∧
    AuthTs.decodeSignature sigB58 = some (bufferFromBase64 sigB58) ∧
    (bufferFromBase64 sigB58).length = 65 ∧
    (AuthTs.verifyHandler (oracleExpect ((bs58Decode sigB58).getD []))
        ⟨none, none⟩ [(addr32, ⟨nonceA, 0⟩)] [] 0 addr32 sigB58).1
      = .serverError := by
  refine ⟨by decide, by decide, rfl, by decide, by decide⟩

/-- C8 (counterexample): in the /auth/verify handler of
src/routes/auth.ts a malformed wallet address that is valid base58 but
decodes to 3 bytes instead of 32 ("abc") reaches nacl, whose size error
is caught by the outer catch and answered as 500 server_error — not as
a 400 input-validation error. -/
theorem C8_counterexample :
    bs58Decode "abc" = some [1, 185, 123] ∧
    (AuthTs.verifyHandler oracleTrue ⟨none, none⟩ [("abc", ⟨nonceA, 0⟩)] []
      0 "abc" sig86A).1 = .serverError ∧
    AuthTs.VerifyResult.status .serverError = 500 := by
  refine ⟨by decide, by decide, rfl⟩

/-- C8 (amended): in src/routes/authRoutes.ts a present but malformed
wallet address (not the base58 encoding of exactly 32 bytes) makes both
/auth/challenge and /auth/verify answer the 400 invalid-wallet-address
error with the store untouched, never reaching signature
verification. -/
theorem C8_theorem (ver : SigVerifier) (env : Env)
    (store : AuthRoutesTs.ChallengeStore) (nowMs : Nat)
    (nonceHex w s : String)
    (hw : w ≠ "") (hs : s ≠ "") (hbad : isSolanaAddress w = false) :
    AuthRoutesTs.challengeHandler store nowMs nonceHex w
      = (.invalidWalletAddress, store) ∧
    AuthRoutesTs.verifyHandler ver env store nowMs w s
      = (.invalidWalletAddress, store) ∧
    AuthRoutesTs.ChallengeResult.status .invalidWalletAddress = 400 ∧
    AuthRoutesTs.VResult.status .invalidWalletAddress = 400 := by
  refine ⟨?_, ?_, rfl, rfl⟩
  · unfold AuthRoutesTs.challengeHandler
    rw [if_neg hw]
    rw [if_pos (by simp [hbad])]
  · unfold AuthRoutesTs.verifyHandler
    rw [if_neg (by simp [hw, hs])]
    rw [if_pos (by simp [hbad])]

/-- C8 (witness): the 3-byte address "abc" is rejected with 400 by both
authRoutes.ts endpoints. -/
theorem C8_witness :
    isSolanaAddress "abc" = false ∧
    (AuthRoutesTs.challengeHandler [] 0 nonceA "abc"
       = (.invalidWalletAddress, []) ∧
     AuthRoutesTs.verifyHandler oracleTrue ⟨none, none⟩ [] 0 "abc" sig86A
       = (.invalidWalletAddress, []) ∧
     AuthRoutesTs.ChallengeResult.status .invalidWalletAddress = 400 ∧
     AuthRoutesTs.VResult.status .invalidWalletAddress = 400) :=
  ⟨by decide,
   C8_theorem oracleTrue ⟨none, none⟩ [] 0 nonceA "abc" sig86A
     (by decide) (by decide) (by decide)⟩

/-- C9 (counterexample): in the /auth/verify handler of
src/routes/auth.ts an existing Account with role USER whose address is
on the admin allow-list is NOT promoted on successful verification: the
User store is returned unchanged and the response carries role USER. -/
theorem C9_counterexample :
    isAdminWallet (jsEnv (some addr32)) addr32 = true ∧
    AuthTs.verifyHandler oracleTrue ⟨none, some addr32⟩
      [(addr32, ⟨nonceA, 0⟩)] [(addr32, ⟨"USER"⟩)] 0 addr32 sig86A
      = (.success
          (jwtSign ⟨some addr32, some "USER", none⟩ "dev-secret-change-me" 0
            (30 * dayMs))
          addr32 "USER",
         [], [(addr32, ⟨"USER"⟩)]) := by
  refine ⟨by decide, by decide⟩

/-- C9 (amended): on every successful /auth/verify in src/routes/auth.ts
the User store is updated as follows — a missing Account is created
with role ADMIN exactly when the address is on the allow-list and USER
otherwise, while an existing Account is left entirely unchanged (no
promotion of an allow-listed USER). -/
theorem C9_theorem (ver : SigVerifier) (env : Env)
    (nonces : AuthTs.NonceStore) (users : AuthTs.UserStore) (nowMs : Nat)
    (w s : String)
    (h : (AuthTs.verifyHandler ver env nonces users nowMs w s).1.isSuccess = true) :
    (AuthTs.verifyHandler ver env nonces users nowMs w s).2.2 =
      (match lookup users w with
       | none => users ++
           [(w, ⟨if isAdminWallet (jsEnv env.adminWallets) w
                 then "ADMIN" else "USER"⟩)]
       | some _ => users) :=
  (AuthTs.verify_success_inv ver env nonces users nowMs w s h).2.2

/-- C9 (witness): a first-time verification for the allow-listed
zero-key wallet creates its Account with role ADMIN. -/
theorem C9_witness :
    (AuthTs.verifyHandler oracleTrue ⟨none, some addr32⟩
      [(addr32, ⟨nonceA, 0⟩)] [] 0 addr32 sig86A).1.isSuccess = true ∧
    (AuthTs.verifyHandler oracleTrue ⟨none, some addr32⟩
      [(addr32, ⟨nonceA, 0⟩)] [] 0 addr32 sig86A).2.2 =
      (match lookup ([] : AuthTs.UserStore) addr32 with
       | none => [] ++
           [(addr32, ⟨if isAdminWallet (jsEnv (some addr32)) addr32
                 then "ADMIN" else "USER"⟩)]
       | some _ => []) :=
  ⟨by decide,
   C9_theorem oracleTrue ⟨none, some addr32⟩ [(addr32, ⟨nonceA, 0⟩)] [] 0
     addr32 sig86A (by decide)⟩

end FstBackend
